import Mathlib

/-!
Shallow embedding of `idempotency_key/storage.py`: the idempotency-key
store with its two backends (`MemoryKeyStorage`, `CacheKeyStorage`) and
the cached-record type `CachedHttpResponse`.

Modelling conventions:
* Time is an explicit `Nat` parameter `now` passed to every operation that
  calls `time.time()` in the source.
* An HTTP response is modelled by its status code; the stored payload is
  `Option HttpResponse`, with `none` playing the role of Python's `None`
  (the reservation sentinel, and more generally any value that is not an
  `HttpResponse` instance).
* Python dicts are association lists observed through `dictFind`;
  `dictInsert` overwrites, `dictRemove` deletes every binding of the key
  (dict keys are unique, so this matches `del d[k]` on any state reachable
  through the dict API).
* `MemoryKeyStorage.idempotency_key_cache_data` is a `defaultdict(dict)`:
  its values have type `Option Table` so that Python's dynamically-typed
  `None` is representable, and `ddGet` models `defaultdict.__getitem__`,
  which inserts and returns a fresh empty dict for a missing key.
* Operations that can raise in Python return `Except PyErr`; operations
  that cannot raise are total functions, which is how "never raises an
  error" is expressed in this development.
-/

/-- Exceptions that the embedded code can raise. -/
inductive PyErr where
  | valueError
  | typeError
  | invalidCacheBackendError
  deriving DecidableEq

/-- An HTTP response, modelled by its status code alone. -/
structure HttpResponse where
  status_code : Nat
  deriving DecidableEq

/-- Embeds `CachedHttpResponse`: a payload (possibly the `None`
reservation sentinel) together with the modification time set by
`time.time()` at construction. -/
structure CachedHttpResponse where
  _response : Option HttpResponse
  _mtime : Nat
  deriving DecidableEq

/-- Embeds `CachedHttpResponse.__init__(value)`: stores the value and
stamps `_mtime` with the current time. -/
def CachedHttpResponse.init (value : Option HttpResponse) (now : Nat) :
    CachedHttpResponse :=
  { _response := value, _mtime := now }

/-- Embeds the `response_and_mtime` property getter. -/
def CachedHttpResponse.response_and_mtime (c : CachedHttpResponse) :
    Option HttpResponse × Nat :=
  (c._response, c._mtime)

/-- Embeds the `response_and_mtime` property setter: raises `ValueError`
unless the assigned value is an `HttpResponse` instance (in this model,
unless it is `some r`); on success it replaces the stored response and
stamps `_mtime` with the current time. -/
def CachedHttpResponse.set_response_and_mtime (c : CachedHttpResponse)
    (value : Option HttpResponse) (now : Nat) : Except PyErr CachedHttpResponse :=
  match value, c with
  | none, _ => .error .valueError
  | some r, _ => .ok { _response := some r, _mtime := now }

/-- Lookup in a Python dict modelled as an association list. -/
def dictFind {α : Type} : List (String × α) → String → Option α
  | [], _ => none
  | (k', v) :: rest, k => if k' = k then some v else dictFind rest k

/-- Overwriting insertion, `d[k] = v`. -/
def dictInsert {α : Type} : List (String × α) → String → α → List (String × α)
  | [], k, v => [(k, v)]
  | (k', v') :: rest, k, v =>
    if k' = k then (k, v) :: rest else (k', v') :: dictInsert rest k v

/-- Deletion, `del d[k]` (removes every binding of `k`; dict keys are
unique so this coincides with removing the one binding). -/
def dictRemove {α : Type} : List (String × α) → String → List (String × α)
  | [], _ => []
  | (k', v') :: rest, k =>
    if k' = k then dictRemove rest k else (k', v') :: dictRemove rest k

/-- One namespace table of the in-memory backend: encoded key ↦ cached
response. -/
abbrev Table := List (String × CachedHttpResponse)

/-- The outer `defaultdict(dict)` of `MemoryKeyStorage`: cache name ↦
namespace table. Values are `Option Table` so that a table slot holding
Python `None` is representable (the source guards against it). -/
abbrev CacheData := List (String × Option Table)

/-- Embeds `defaultdict.__getitem__` with factory `dict`: returns the
stored value for `k`, or inserts and returns a fresh empty table when `k`
is missing. The result pairs the returned value with the (possibly
updated) dict. -/
def ddGet (d : CacheData) (k : String) : Option Table × CacheData :=
  match dictFind d k with
  | some v => (v, d)
  | none => (some [], dictInsert d k (some []))

/-- Embeds `MemoryKeyStorage`: the configured `ttl` and the
`defaultdict(dict)` table. -/
structure MemoryKeyStorage where
  ttl : Nat
  idempotency_key_cache_data : CacheData
  deriving DecidableEq

/-- Embeds `MemoryKeyStorage.__init__(ttl)`. -/
def MemoryKeyStorage.minit (ttl : Nat) : MemoryKeyStorage :=
  { ttl := ttl, idempotency_key_cache_data := [] }

/-- Embeds `MemoryKeyStorage.store_data`:
`self.idempotency_key_cache_data[cache_name][encoded_key] = CachedHttpResponse(response)`.
The outer `defaultdict` access default-inserts an empty table; if the slot
held `None`, the inner item assignment would raise `TypeError`. -/
def MemoryKeyStorage.store_data (s : MemoryKeyStorage)
    (cache_name encoded_key : String) (response : Option HttpResponse)
    (now : Nat) : Except PyErr MemoryKeyStorage :=
  let cached_response := CachedHttpResponse.init response now
  let p := ddGet s.idempotency_key_cache_data cache_name
  match p.1 with
  | none => .error .typeError
  | some the_cache =>
    .ok { s with idempotency_key_cache_data :=
            (dictInsert p.2 cache_name
              (some (dictInsert the_cache encoded_key cached_response))) }

/-- Embeds `MemoryKeyStorage.retrieve_data`. The source's guard
`if the_cache is None or encoded_key not in the_cache` is the first two
match arms; an incomplete (sentinel) value older than `ttl` is deleted and
reported absent. -/
def MemoryKeyStorage.retrieve_data (s : MemoryKeyStorage)
    (cache_name encoded_key : String) (now : Nat) :
    (Bool × Option HttpResponse) × MemoryKeyStorage :=
  let p := ddGet s.idempotency_key_cache_data cache_name
  match p.1 with
  | none => ((false, none), { s with idempotency_key_cache_data := p.2 })
  | some the_cache =>
    match dictFind the_cache encoded_key with
    | none => ((false, none), { s with idempotency_key_cache_data := p.2 })
    | some entry =>
      let rm := entry.response_and_mtime
      if rm.1 = none ∧ rm.2 + s.ttl < now then
        ((false, none),
         { s with idempotency_key_cache_data :=
             (dictInsert p.2 cache_name
               (some (dictRemove the_cache encoded_key))) })
      else ((true, rm.1), { s with idempotency_key_cache_data := p.2 })

/-- Embeds `MemoryKeyStorage.delete_data`: deletes the key when the table
is truthy (non-`None` and nonempty) and contains the key. -/
def MemoryKeyStorage.delete_data (s : MemoryKeyStorage)
    (cache_name encoded_key : String) : MemoryKeyStorage :=
  let p := ddGet s.idempotency_key_cache_data cache_name
  match p.1 with
  | none => { s with idempotency_key_cache_data := p.2 }
  | some the_cache =>
    if the_cache ≠ [] ∧ dictFind the_cache encoded_key ≠ none then
      { s with idempotency_key_cache_data :=
          (dictInsert p.2 cache_name (some (dictRemove the_cache encoded_key))) }
    else { s with idempotency_key_cache_data := p.2 }

/-- Embeds `MemoryKeyStorage.validate_storage`: `pass` — never raises, for
any name. -/
def MemoryKeyStorage.validate_storage (_name : String) : Except PyErr Unit :=
  .ok ()

/-- Observation helper (not in the source): the record currently stored
under `(cache_name, encoded_key)`, seen through the dict API. -/
def MemoryKeyStorage.lookup (s : MemoryKeyStorage)
    (cache_name encoded_key : String) : Option CachedHttpResponse :=
  match dictFind s.idempotency_key_cache_data cache_name with
  | none => none
  | some none => none
  | some (some tab) => dictFind tab encoded_key

/-- Observation helper: the stored payload, `none` when no record exists,
`some p` when a record with payload `p` exists. -/
def MemoryKeyStorage.payload_state (s : MemoryKeyStorage)
    (cache_name encoded_key : String) : Option (Option HttpResponse) :=
  (s.lookup cache_name encoded_key).map (fun e => e._response)

/-- The Django `caches` registry, modelled as the map from configured
cache names to their key-value tables. `caches[name]` raises
`InvalidCacheBackendError` when `name` is not configured. -/
abbrev DjangoCaches := List (String × Table)

/-- Embeds `CacheKeyStorage.__init__(ttl)`: only the `ttl` is stored; the
tables live in the external `caches` registry. -/
structure CacheKeyStorage where
  ttl : Nat
  deriving DecidableEq

/-- Embeds `CacheKeyStorage.store_data`:
`caches[cache_name].set(encoded_key, CachedHttpResponse(response))`.
The registry lookup raises when the cache name is not configured. -/
def CacheKeyStorage.store_data (st : CacheKeyStorage) (c : DjangoCaches)
    (cache_name encoded_key : String) (response : Option HttpResponse)
    (now : Nat) : Except PyErr DjangoCaches :=
  let cached_response := CachedHttpResponse.init response now
  match dictFind c cache_name with
  | none => .error .invalidCacheBackendError
  | some tab =>
    .ok (dictInsert c cache_name (dictInsert tab encoded_key cached_response))

/-- Embeds `CacheKeyStorage.retrieve_data`: absent key reports
`(False, None)`; an incomplete (sentinel) value older than `ttl` is
deleted from the cache and reported absent; otherwise the payload is
returned with `True`. -/
def CacheKeyStorage.retrieve_data (st : CacheKeyStorage) (c : DjangoCaches)
    (cache_name encoded_key : String) (now : Nat) :
    Except PyErr ((Bool × Option HttpResponse) × DjangoCaches) :=
  match dictFind c cache_name with
  | none => .error .invalidCacheBackendError
  | some tab =>
    match dictFind tab encoded_key with
    | none => .ok ((false, none), c)
    | some entry =>
      let rm := entry.response_and_mtime
      if rm.1 = none ∧ rm.2 + st.ttl < now then
        .ok ((false, none),
             dictInsert c cache_name (dictRemove tab encoded_key))
      else .ok ((true, rm.1), c)

/-- Embeds `CacheKeyStorage.delete_data`: deletes the key only if
present (`if encoded_key in caches[cache_name]`). -/
def CacheKeyStorage.delete_data (st : CacheKeyStorage) (c : DjangoCaches)
    (cache_name encoded_key : String) : Except PyErr DjangoCaches :=
  match dictFind c cache_name with
  | none => .error .invalidCacheBackendError
  | some tab =>
    if dictFind tab encoded_key ≠ none then
      .ok (dictInsert c cache_name (dictRemove tab encoded_key))
    else .ok c

/-- Embeds `CacheKeyStorage.validate_storage(name)`: evaluates
`caches[name]`, which raises `InvalidCacheBackendError` exactly when the
name cannot be resolved among the configured caches. -/
def CacheKeyStorage.validate_storage (name : String) (c : DjangoCaches) :
    Except PyErr Unit :=
  match dictFind c name with
  | none => .error .invalidCacheBackendError
  | some _ => .ok ()

/-- Observation helper: the record stored under `(cache_name, encoded_key)`
in the `caches` registry. -/
def cacheLookup (c : DjangoCaches) (cache_name encoded_key : String) :
    Option CachedHttpResponse :=
  match dictFind c cache_name with
  | none => none
  | some tab => dictFind tab encoded_key

/-- One client-visible operation against a `MemoryKeyStorage`. -/
inductive MemOp where
  | store (cache_name encoded_key : String) (response : Option HttpResponse) (now : Nat)
  | retrieve (cache_name encoded_key : String) (now : Nat)
  | delete (cache_name encoded_key : String)
  deriving DecidableEq

/-- The state reached after one operation. An operation that raises in
Python (a `store_data` hitting a `None` table slot, impossible in
reachable states) leaves the state unchanged, exactly as the exception
would. -/
def MemoryKeyStorage.applyOp (s : MemoryKeyStorage) : MemOp → MemoryKeyStorage
  | .store ns k r t =>
    match s.store_data ns k r t with
    | .ok s' => s'
    | .error _ => s
  | .retrieve ns k t => (s.retrieve_data ns k t).2
  | .delete ns k => s.delete_data ns k

/-- The state reached after a sequence of operations. -/
def MemoryKeyStorage.applyOps (s : MemoryKeyStorage) (ops : List MemOp) :
    MemoryKeyStorage :=
  ops.foldl MemoryKeyStorage.applyOp s

/-- Does this operation store the given payload-free sentinel under
`(cache_name, encoded_key)`? -/
def MemOp.stores_sentinel_to (op : MemOp) (cache_name encoded_key : String) : Bool :=
  match op with
  | .store ns k r _ => ns = cache_name && k = encoded_key && r = none
  | _ => false

/-- Does this operation store anything under `(cache_name, encoded_key)`? -/
def MemOp.is_store_to (op : MemOp) (cache_name encoded_key : String) : Bool :=
  match op with
  | .store ns k _ _ => ns = cache_name && k = encoded_key
  | _ => false

/-- Wellformedness of a memory store: no slot of the outer
`defaultdict` holds Python `None` (its values are only ever the tables the
default factory creates). -/
def MemoryKeyStorage.WF (s : MemoryKeyStorage) : Prop :=
  ∀ p ∈ s.idempotency_key_cache_data, p.2 ≠ (none : Option Table)

instance (s : MemoryKeyStorage) : Decidable s.WF := by
  unfold MemoryKeyStorage.WF
  infer_instance

/-- The read outcome `retrieve_data` reports, as a function of the stored
record alone. -/
def readResult (ttl : Nat) (e? : Option CachedHttpResponse) (now : Nat) :
    Bool × Option HttpResponse :=
  match e? with
  | none => (false, none)
  | some e =>
    if e._response = none ∧ e._mtime + ttl < now then (false, none)
    else (true, e._response)

theorem dictFind_insert_self {α : Type} (d : List (String × α)) (k : String)
    (v : α) : dictFind (dictInsert d k v) k = some v := by
  induction d with
  | nil => simp [dictFind, dictInsert]
  | cons hd tl ih =>
    by_cases h : hd.1 = k
    · simp [dictInsert, dictFind, h]
    · simp [dictInsert, dictFind, h, ih]

theorem dictFind_insert_ne {α : Type} (d : List (String × α)) {k k' : String}
    (v : α) (h : k ≠ k') : dictFind (dictInsert d k v) k' = dictFind d k' := by
  induction d with
  | nil => simp [dictFind, dictInsert, h]
  | cons hd tl ih =>
    by_cases hk : hd.1 = k
    · simp [dictInsert, dictFind, hk, h]
    · simp only [dictInsert, hk, if_false]
      by_cases hk' : hd.1 = k'
      · simp [dictFind, hk']
      · simp [dictFind, hk', ih]

theorem dictFind_remove_self {α : Type} (d : List (String × α)) (k : String) :
    dictFind (dictRemove d k) k = none := by
  induction d with
  | nil => simp [dictFind, dictRemove]
  | cons hd tl ih =>
    by_cases h : hd.1 = k
    · simp [dictRemove, h, ih]
    · simp [dictRemove, dictFind, h, ih]

theorem dictFind_remove_ne {α : Type} (d : List (String × α)) {k k' : String}
    (h : k ≠ k') : dictFind (dictRemove d k) k' = dictFind d k' := by
  induction d with
  | nil => simp [dictRemove]
  | cons hd tl ih =>
    by_cases hk : hd.1 = k
    · have hk' : hd.1 ≠ k' := by rw [hk]; exact h
      simp [dictRemove, dictFind, hk, hk', h, ih]
    · by_cases hk' : hd.1 = k'
      · simp [dictRemove, dictFind, hk, hk', Ne.symm h]
      · simp [dictRemove, dictFind, hk, hk', ih]

theorem mem_dictInsert {α : Type} {d : List (String × α)} {k : String}
    {v : α} {p : String × α} (h : p ∈ dictInsert d k v) :
    p = (k, v) ∨ p ∈ d := by
  induction d with
  | nil => simpa [dictInsert] using h
  | cons hd tl ih =>
    by_cases hk : hd.1 = k
    · simp only [dictInsert, hk, if_true] at h
      rcases List.mem_cons.mp h with h | h
      · exact Or.inl h
      · exact Or.inr (List.mem_cons_of_mem _ h)
    · simp only [dictInsert, hk, if_false] at h
      rcases List.mem_cons.mp h with h | h
      · exact Or.inr (h ▸ List.mem_cons_self _ _)
      · rcases ih h with h | h
        · exact Or.inl h
        · exact Or.inr (List.mem_cons_of_mem _ h)

theorem mem_dictRemove {α : Type} {d : List (String × α)} {k : String}
    {p : String × α} (h : p ∈ dictRemove d k) : p ∈ d := by
  induction d with
  | nil => simp [dictRemove] at h
  | cons hd tl ih =>
    by_cases hk : hd.1 = k
    · simp only [dictRemove, hk, if_true] at h
      exact List.mem_cons_of_mem _ (ih h)
    · simp only [dictRemove, hk, if_false] at h
      rcases List.mem_cons.mp h with h | h
      · exact h ▸ List.mem_cons_self _ _
      · exact List.mem_cons_of_mem _ (ih h)

theorem dictFind_mem {α : Type} {d : List (String × α)} {k : String} {v : α}
    (h : dictFind d k = some v) : (k, v) ∈ d := by
  induction d with
  | nil => simp [dictFind] at h
  | cons hd tl ih =>
    by_cases hk : hd.1 = k
    · simp only [dictFind, hk, if_true, Option.some.injEq] at h
      exact List.mem_cons.mpr (Or.inl (by rw [← hk, ← h]))
    · simp only [dictFind, hk, if_false] at h
      exact List.mem_cons_of_mem _ (ih h)

theorem store_data_ttl {s s' : MemoryKeyStorage} {ns k : String}
    {r : Option HttpResponse} {t : Nat}
    (h : s.store_data ns k r t = .ok s') : s'.ttl = s.ttl := by
  cases hfind : dictFind s.idempotency_key_cache_data ns with
  | none =>
    simp only [MemoryKeyStorage.store_data, ddGet, hfind] at h
    rw [Except.ok.injEq] at h
    subst h
    rfl
  | some tab? =>
    cases tab? with
    | none => simp [MemoryKeyStorage.store_data, ddGet, hfind] at h
    | some tab =>
      simp only [MemoryKeyStorage.store_data, ddGet, hfind] at h
      rw [Except.ok.injEq] at h
      subst h
      rfl

theorem lookup_store_self {s s' : MemoryKeyStorage} {ns k : String}
    {r : Option HttpResponse} {t : Nat}
    (h : s.store_data ns k r t = .ok s') :
    s'.lookup ns k = some (CachedHttpResponse.init r t) := by
  cases hfind : dictFind s.idempotency_key_cache_data ns with
  | none =>
    simp only [MemoryKeyStorage.store_data, ddGet, hfind] at h
    rw [Except.ok.injEq] at h
    subst h
    simp [MemoryKeyStorage.lookup, dictFind_insert_self, dictFind, dictInsert]
  | some tab? =>
    cases tab? with
    | none => simp [MemoryKeyStorage.store_data, ddGet, hfind] at h
    | some tab =>
      simp only [MemoryKeyStorage.store_data, ddGet, hfind] at h
      rw [Except.ok.injEq] at h
      subst h
      simp [MemoryKeyStorage.lookup, dictFind_insert_self]

theorem lookup_store_ne {s s' : MemoryKeyStorage} {ns k : String}
    {r : Option HttpResponse} {t : Nat} {ns' k' : String}
    (h : s.store_data ns k r t = .ok s') (hne : ¬(ns' = ns ∧ k' = k)) :
    s'.lookup ns' k' = s.lookup ns' k' := by
  by_cases hns : ns' = ns
  · subst hns
    have hk : k ≠ k' := fun hk => hne ⟨rfl, hk.symm⟩
    cases hfind : dictFind s.idempotency_key_cache_data ns' with
    | none =>
      simp only [MemoryKeyStorage.store_data, ddGet, hfind] at h
      rw [Except.ok.injEq] at h
      subst h
      simp [MemoryKeyStorage.lookup, dictFind_insert_self, hfind,
            dictFind_insert_ne _ _ hk, dictFind, dictInsert, hk]
    | some tab? =>
      cases tab? with
      | none => simp [MemoryKeyStorage.store_data, ddGet, hfind] at h
      | some tab =>
        simp only [MemoryKeyStorage.store_data, ddGet, hfind] at h
        rw [Except.ok.injEq] at h
        subst h
        simp [MemoryKeyStorage.lookup, dictFind_insert_self, hfind,
              dictFind_insert_ne _ _ hk]
  · have hns' : ns ≠ ns' := fun hk => hns hk.symm
    cases hfind : dictFind s.idempotency_key_cache_data ns with
    | none =>
      simp only [MemoryKeyStorage.store_data, ddGet, hfind] at h
      rw [Except.ok.injEq] at h
      subst h
      simp [MemoryKeyStorage.lookup, dictFind_insert_ne _ _ hns']
    | some tab? =>
      cases tab? with
      | none => simp [MemoryKeyStorage.store_data, ddGet, hfind] at h
      | some tab =>
        simp only [MemoryKeyStorage.store_data, ddGet, hfind] at h
        rw [Except.ok.injEq] at h
        subst h
        simp [MemoryKeyStorage.lookup, dictFind_insert_ne _ _ hns']

theorem retrieve_data_fst (s : MemoryKeyStorage) (ns k : String) (now : Nat) :
    (s.retrieve_data ns k now).1 = readResult s.ttl (s.lookup ns k) now := by
  cases hfind : dictFind s.idempotency_key_cache_data ns with
  | none =>
    simp [MemoryKeyStorage.retrieve_data, ddGet, hfind, MemoryKeyStorage.lookup,
          readResult, dictFind]
  | some tab? =>
    cases tab? with
    | none =>
      simp [MemoryKeyStorage.retrieve_data, ddGet, hfind, MemoryKeyStorage.lookup,
            readResult]
    | some tab =>
      cases hk : dictFind tab k with
      | none =>
        simp [MemoryKeyStorage.retrieve_data, ddGet, hfind, hk,
              MemoryKeyStorage.lookup, readResult]
      | some entry =>
        by_cases hc : entry._response = none ∧ entry._mtime + s.ttl < now
        · simp [MemoryKeyStorage.retrieve_data, ddGet, hfind, hk, hc,
                CachedHttpResponse.response_and_mtime, MemoryKeyStorage.lookup,
                readResult]
        · simp [MemoryKeyStorage.retrieve_data, ddGet, hfind, hk, hc,
                CachedHttpResponse.response_and_mtime, MemoryKeyStorage.lookup,
                readResult]

theorem retrieve_data_ttl (s : MemoryKeyStorage) (ns k : String) (now : Nat) :
    ((s.retrieve_data ns k now).2).ttl = s.ttl := by
  cases hfind : dictFind s.idempotency_key_cache_data ns with
  | none => simp [MemoryKeyStorage.retrieve_data, ddGet, hfind, dictFind]
  | some tab? =>
    cases tab? with
    | none => simp [MemoryKeyStorage.retrieve_data, ddGet, hfind]
    | some tab =>
      cases hk : dictFind tab k with
      | none => simp [MemoryKeyStorage.retrieve_data, ddGet, hfind, hk]
      | some entry =>
        by_cases hc : entry._response = none ∧ entry._mtime + s.ttl < now
        · simp [MemoryKeyStorage.retrieve_data, ddGet, hfind, hk, hc,
                CachedHttpResponse.response_and_mtime]
        · simp [MemoryKeyStorage.retrieve_data, ddGet, hfind, hk, hc,
                CachedHttpResponse.response_and_mtime]

theorem retrieve_lookup_self (s : MemoryKeyStorage) (ns k : String) (now : Nat) :
    ((s.retrieve_data ns k now).2).lookup ns k =
      if ((s.retrieve_data ns k now).1).1 = true then s.lookup ns k else none := by
  cases hfind : dictFind s.idempotency_key_cache_data ns with
  | none =>
    simp [MemoryKeyStorage.retrieve_data, ddGet, hfind, MemoryKeyStorage.lookup,
          dictFind_insert_self, dictFind]
  | some tab? =>
    cases tab? with
    | none =>
      simp [MemoryKeyStorage.retrieve_data, ddGet, hfind, MemoryKeyStorage.lookup]
    | some tab =>
      cases hk : dictFind tab k with
      | none =>
        simp [MemoryKeyStorage.retrieve_data, ddGet, hfind, hk,
              MemoryKeyStorage.lookup]
      | some entry =>
        by_cases hc : entry._response = none ∧ entry._mtime + s.ttl < now
        · simp [MemoryKeyStorage.retrieve_data, ddGet, hfind, hk, hc,
                CachedHttpResponse.response_and_mtime, MemoryKeyStorage.lookup,
                dictFind_insert_self, dictFind_remove_self]
        · simp [MemoryKeyStorage.retrieve_data, ddGet, hfind, hk, hc,
                CachedHttpResponse.response_and_mtime, MemoryKeyStorage.lookup]

theorem retrieve_lookup_ne (s : MemoryKeyStorage) {ns k : String} (now : Nat)
    {ns' k' : String} (hne : ¬(ns' = ns ∧ k' = k)) :
    ((s.retrieve_data ns k now).2).lookup ns' k' = s.lookup ns' k' := by
  by_cases hns : ns' = ns
  · subst hns
    have hk' : k ≠ k' := fun hk => hne ⟨rfl, hk.symm⟩
    cases hfind : dictFind s.idempotency_key_cache_data ns' with
    | none =>
      simp [MemoryKeyStorage.retrieve_data, ddGet, hfind, MemoryKeyStorage.lookup,
            dictFind_insert_self, dictFind]
    | some tab? =>
      cases tab? with
      | none =>
        simp [MemoryKeyStorage.retrieve_data, ddGet, hfind,
              MemoryKeyStorage.lookup]
      | some tab =>
        cases hk : dictFind tab k with
        | none =>
          simp [MemoryKeyStorage.retrieve_data, ddGet, hfind, hk,
                MemoryKeyStorage.lookup]
        | some entry =>
          by_cases hc : entry._response = none ∧ entry._mtime + s.ttl < now
          · simp [MemoryKeyStorage.retrieve_data, ddGet, hfind, hk, hc,
                  CachedHttpResponse.response_and_mtime, MemoryKeyStorage.lookup,
                  dictFind_insert_self, dictFind_remove_ne _ hk']
          · simp [MemoryKeyStorage.retrieve_data, ddGet, hfind, hk, hc,
                  CachedHttpResponse.response_and_mtime, MemoryKeyStorage.lookup]
  · have hns' : ns ≠ ns' := fun hk => hns hk.symm
    cases hfind : dictFind s.idempotency_key_cache_data ns with
    | none =>
      simp [MemoryKeyStorage.retrieve_data, ddGet, hfind, MemoryKeyStorage.lookup,
            dictFind, dictFind_insert_ne _ _ hns']
    | some tab? =>
      cases tab? with
      | none =>
        simp [MemoryKeyStorage.retrieve_data, ddGet, hfind,
              MemoryKeyStorage.lookup]
      | some tab =>
        cases hk : dictFind tab k with
        | none =>
          simp [MemoryKeyStorage.retrieve_data, ddGet, hfind, hk,
                MemoryKeyStorage.lookup]
        | some entry =>
          by_cases hc : entry._response = none ∧ entry._mtime + s.ttl < now
          · simp [MemoryKeyStorage.retrieve_data, ddGet, hfind, hk, hc,
                  CachedHttpResponse.response_and_mtime, MemoryKeyStorage.lookup,
                  dictFind_insert_ne _ _ hns']
          · simp [MemoryKeyStorage.retrieve_data, ddGet, hfind, hk, hc,
                  CachedHttpResponse.response_and_mtime, MemoryKeyStorage.lookup]

theorem delete_data_ttl (s : MemoryKeyStorage) (ns k : String) :
    (s.delete_data ns k).ttl = s.ttl := by
  cases hfind : dictFind s.idempotency_key_cache_data ns with
  | none => simp [MemoryKeyStorage.delete_data, ddGet, hfind, dictFind]
  | some tab? =>
    cases tab? with
    | none => simp [MemoryKeyStorage.delete_data, ddGet, hfind]
    | some tab =>
      by_cases hcond : tab ≠ [] ∧ dictFind tab k ≠ none
      · simp [MemoryKeyStorage.delete_data, ddGet, hfind, hcond]
      · simp [MemoryKeyStorage.delete_data, ddGet, hfind, hcond]

theorem delete_lookup_self (s : MemoryKeyStorage) (ns k : String) :
    (s.delete_data ns k).lookup ns k = none := by
  cases hfind : dictFind s.idempotency_key_cache_data ns with
  | none =>
    simp [MemoryKeyStorage.delete_data, ddGet, hfind, MemoryKeyStorage.lookup,
          dictFind_insert_self, dictFind]
  | some tab? =>
    cases tab? with
    | none =>
      simp [MemoryKeyStorage.delete_data, ddGet, hfind, MemoryKeyStorage.lookup]
    | some tab =>
      cases hk : dictFind tab k with
      | none =>
        simp [MemoryKeyStorage.delete_data, ddGet, hfind, hk,
              MemoryKeyStorage.lookup]
      | some entry =>
        have htab : tab ≠ [] := by
          intro h
          rw [h] at hk
          simp [dictFind] at hk
        simp [MemoryKeyStorage.delete_data, ddGet, hfind, hk, htab,
              MemoryKeyStorage.lookup, dictFind_insert_self, dictFind_remove_self]

theorem delete_lookup_ne (s : MemoryKeyStorage) {ns k ns' k' : String}
    (hne : ¬(ns' = ns ∧ k' = k)) :
    (s.delete_data ns k).lookup ns' k' = s.lookup ns' k' := by
  by_cases hns : ns' = ns
  · subst hns
    have hk' : k ≠ k' := fun hk => hne ⟨rfl, hk.symm⟩
    cases hfind : dictFind s.idempotency_key_cache_data ns' with
    | none =>
      simp [MemoryKeyStorage.delete_data, ddGet, hfind, MemoryKeyStorage.lookup,
            dictFind_insert_self, dictFind]
    | some tab? =>
      cases tab? with
      | none =>
        simp [MemoryKeyStorage.delete_data, ddGet, hfind, MemoryKeyStorage.lookup]
      | some tab =>
        cases hk : dictFind tab k with
        | none =>
          simp [MemoryKeyStorage.delete_data, ddGet, hfind, hk,
                MemoryKeyStorage.lookup]
        | some entry =>
          have htab : tab ≠ [] := by
            intro h
            rw [h] at hk
            simp [dictFind] at hk
          simp [MemoryKeyStorage.delete_data, ddGet, hfind, hk, htab,
                MemoryKeyStorage.lookup, dictFind_insert_self,
                dictFind_remove_ne _ hk']
  · have hns' : ns ≠ ns' := fun hk => hns hk.symm
    cases hfind : dictFind s.idempotency_key_cache_data ns with
    | none =>
      simp [MemoryKeyStorage.delete_data, ddGet, hfind, MemoryKeyStorage.lookup,
            dictFind, dictFind_insert_ne _ _ hns']
    | some tab? =>
      cases tab? with
      | none =>
        simp [MemoryKeyStorage.delete_data, ddGet, hfind, MemoryKeyStorage.lookup]
      | some tab =>
        by_cases hcond : tab ≠ [] ∧ dictFind tab k ≠ none
        · simp [MemoryKeyStorage.delete_data, ddGet, hfind, hcond,
                MemoryKeyStorage.lookup, dictFind_insert_ne _ _ hns']
        · simp [MemoryKeyStorage.delete_data, ddGet, hfind, hcond,
                MemoryKeyStorage.lookup]

theorem WF_minit (ttl : Nat) : (MemoryKeyStorage.minit ttl).WF := by
  intro p hp
  simp [MemoryKeyStorage.minit] at hp

theorem WF_insert_some {d : CacheData} (hWF : ∀ p ∈ d, p.2 ≠ (none : Option Table))
    (ns : String) (tab : Table) :
    ∀ p ∈ dictInsert d ns (some tab), p.2 ≠ (none : Option Table) := by
  intro p hp
  rcases mem_dictInsert hp with h | h
  · subst h
    simp
  · exact hWF p h

theorem store_data_ok {s : MemoryKeyStorage} (hWF : s.WF) (ns k : String)
    (r : Option HttpResponse) (t : Nat) :
    ∃ s', s.store_data ns k r t = .ok s' := by
  cases hfind : dictFind s.idempotency_key_cache_data ns with
  | none =>
    exact ⟨{ s with idempotency_key_cache_data :=
               (dictInsert (dictInsert s.idempotency_key_cache_data ns (some []))
                 ns (some (dictInsert [] k (CachedHttpResponse.init r t)))) },
           by simp [MemoryKeyStorage.store_data, ddGet, hfind]⟩
  | some tab? =>
    cases tab? with
    | none => exact absurd rfl (hWF _ (dictFind_mem hfind))
    | some tab =>
      exact ⟨{ s with idempotency_key_cache_data :=
                 (dictInsert s.idempotency_key_cache_data ns
                   (some (dictInsert tab k (CachedHttpResponse.init r t)))) },
             by simp [MemoryKeyStorage.store_data, ddGet, hfind]⟩

theorem WF_store {s s' : MemoryKeyStorage} {ns k : String}
    {r : Option HttpResponse} {t : Nat} (hWF : s.WF)
    (h : s.store_data ns k r t = .ok s') : s'.WF := by
  cases hfind : dictFind s.idempotency_key_cache_data ns with
  | none =>
    simp only [MemoryKeyStorage.store_data, ddGet, hfind] at h
    rw [Except.ok.injEq] at h
    subst h
    exact WF_insert_some (WF_insert_some hWF ns []) ns _
  | some tab? =>
    cases tab? with
    | none => simp [MemoryKeyStorage.store_data, ddGet, hfind] at h
    | some tab =>
      simp only [MemoryKeyStorage.store_data, ddGet, hfind] at h
      rw [Except.ok.injEq] at h
      subst h
      exact WF_insert_some hWF ns _

theorem WF_retrieve {s : MemoryKeyStorage} (hWF : s.WF) (ns k : String)
    (now : Nat) : ((s.retrieve_data ns k now).2).WF := by
  cases hfind : dictFind s.idempotency_key_cache_data ns with
  | none =>
    simp only [MemoryKeyStorage.retrieve_data, ddGet, hfind, dictFind]
    exact WF_insert_some hWF ns []
  | some tab? =>
    cases tab? with
    | none => simpa [MemoryKeyStorage.retrieve_data, ddGet, hfind] using hWF
    | some tab =>
      cases hk : dictFind tab k with
      | none => simpa [MemoryKeyStorage.retrieve_data, ddGet, hfind, hk] using hWF
      | some entry =>
        by_cases hc : entry._response = none ∧ entry._mtime + s.ttl < now
        · simp only [MemoryKeyStorage.retrieve_data, ddGet, hfind, hk, hc,
                     CachedHttpResponse.response_and_mtime, if_pos]
          exact WF_insert_some hWF ns _
        · simpa [MemoryKeyStorage.retrieve_data, ddGet, hfind, hk, hc,
                 CachedHttpResponse.response_and_mtime] using hWF

theorem WF_delete {s : MemoryKeyStorage} (hWF : s.WF) (ns k : String) :
    (s.delete_data ns k).WF := by
  cases hfind : dictFind s.idempotency_key_cache_data ns with
  | none =>
    simp only [MemoryKeyStorage.delete_data, ddGet, hfind, dictFind]
    exact WF_insert_some hWF ns []
  | some tab? =>
    cases tab? with
    | none => simpa [MemoryKeyStorage.delete_data, ddGet, hfind] using hWF
    | some tab =>
      by_cases hcond : tab ≠ [] ∧ dictFind tab k ≠ none
      · simp only [MemoryKeyStorage.delete_data, ddGet, hfind]
        rw [if_pos hcond]
        exact WF_insert_some hWF ns _
      · simpa [MemoryKeyStorage.delete_data, ddGet, hfind, hcond] using hWF

theorem WF_applyOp {s : MemoryKeyStorage} (hWF : s.WF) (op : MemOp) :
    (s.applyOp op).WF := by
  cases op with
  | store ns k r t =>
    cases hstore : s.store_data ns k r t with
    | ok s' =>
      simp only [MemoryKeyStorage.applyOp, hstore]
      exact WF_store hWF hstore
    | error e => simpa [MemoryKeyStorage.applyOp, hstore] using hWF
  | retrieve ns k t => exact WF_retrieve hWF ns k t
  | delete ns k => exact WF_delete hWF ns k

theorem WF_applyOps (ops : List MemOp) :
    ∀ s : MemoryKeyStorage, s.WF → (s.applyOps ops).WF := by
  induction ops with
  | nil => exact fun s hWF => hWF
  | cons op rest ih =>
    intro s hWF
    exact ih (s.applyOp op) (WF_applyOp hWF op)

theorem applyOp_lookup_none {s : MemoryKeyStorage} {ns k : String} {op : MemOp}
    (hop : op.is_store_to ns k = false) (hl : s.lookup ns k = none) :
    (s.applyOp op).lookup ns k = none := by
  cases op with
  | store a b r t =>
    have hne : ¬(ns = a ∧ k = b) := by
      rintro ⟨h1, h2⟩
      subst h1
      subst h2
      simp [MemOp.is_store_to] at hop
    cases hstore : s.store_data a b r t with
    | ok s' =>
      simp only [MemoryKeyStorage.applyOp, hstore]
      rw [lookup_store_ne hstore hne]
      exact hl
    | error e => simpa [MemoryKeyStorage.applyOp, hstore] using hl
  | retrieve a b t =>
    simp only [MemoryKeyStorage.applyOp]
    by_cases hab : ns = a ∧ k = b
    · obtain ⟨h1, h2⟩ := hab
      subst h1
      subst h2
      rw [retrieve_lookup_self, hl]
      exact ite_self none
    · rw [retrieve_lookup_ne s t hab]
      exact hl
  | delete a b =>
    simp only [MemoryKeyStorage.applyOp]
    by_cases hab : ns = a ∧ k = b
    · obtain ⟨h1, h2⟩ := hab
      subst h1
      subst h2
      exact delete_lookup_self s ns k
    · rw [delete_lookup_ne s hab]
      exact hl

theorem applyOps_lookup_none {ns k : String} :
    ∀ (ops : List MemOp) (s : MemoryKeyStorage),
      (∀ op ∈ ops, op.is_store_to ns k = false) →
      s.lookup ns k = none → (s.applyOps ops).lookup ns k = none := by
  intro ops
  induction ops with
  | nil => exact fun s _ hl => hl
  | cons op rest ih =>
    intro s hops hl
    simp only [MemoryKeyStorage.applyOps, List.foldl_cons]
    exact ih _ (fun o ho => hops o (List.mem_cons_of_mem _ ho))
      (applyOp_lookup_none (hops op (List.mem_cons_self _ _)) hl)

theorem applyOp_payload_not_sentinel {s : MemoryKeyStorage} {ns k : String}
    {op : MemOp} (hop : op.stores_sentinel_to ns k = false)
    (hP : s.payload_state ns k ≠ some none) :
    (s.applyOp op).payload_state ns k ≠ some none := by
  simp only [MemoryKeyStorage.payload_state] at hP ⊢
  cases op with
  | store a b r t =>
    cases hstore : s.store_data a b r t with
    | ok s' =>
      simp only [MemoryKeyStorage.applyOp, hstore]
      by_cases hab : ns = a ∧ k = b
      · obtain ⟨h1, h2⟩ := hab
        subst h1
        subst h2
        have hr : r ≠ none := by
          intro hr
          subst hr
          simp [MemOp.stores_sentinel_to] at hop
        rw [lookup_store_self hstore]
        simp [CachedHttpResponse.init, hr]
      · rw [lookup_store_ne hstore hab]
        exact hP
    | error e => simpa [MemoryKeyStorage.applyOp, hstore] using hP
  | retrieve a b t =>
    simp only [MemoryKeyStorage.applyOp]
    by_cases hab : ns = a ∧ k = b
    · obtain ⟨h1, h2⟩ := hab
      subst h1
      subst h2
      rw [retrieve_lookup_self]
      split
      · exact hP
      · simp
    · rw [retrieve_lookup_ne s t hab]
      exact hP
  | delete a b =>
    simp only [MemoryKeyStorage.applyOp]
    by_cases hab : ns = a ∧ k = b
    · obtain ⟨h1, h2⟩ := hab
      subst h1
      subst h2
      rw [delete_lookup_self]
      simp
    · rw [delete_lookup_ne s hab]
      exact hP

theorem applyOps_payload_not_sentinel {ns k : String} :
    ∀ (ops : List MemOp) (s : MemoryKeyStorage),
      (∀ op ∈ ops, op.stores_sentinel_to ns k = false) →
      s.payload_state ns k ≠ some none →
      (s.applyOps ops).payload_state ns k ≠ some none := by
  intro ops
  induction ops with
  | nil => exact fun s _ hP => hP
  | cons op rest ih =>
    intro s hops hP
    simp only [MemoryKeyStorage.applyOps, List.foldl_cons]
    exact ih _ (fun o ho => hops o (List.mem_cons_of_mem _ ho))
      (applyOp_payload_not_sentinel (hops op (List.mem_cons_self _ _)) hP)

theorem ddGet_fst_ne_none {s : MemoryKeyStorage} (hWF : s.WF) (ns : String) :
    (ddGet s.idempotency_key_cache_data ns).1 ≠ none := by
  cases hfind : dictFind s.idempotency_key_cache_data ns with
  | none => simp [ddGet, hfind]
  | some v =>
    have := hWF _ (dictFind_mem hfind)
    simpa [ddGet, hfind] using this

theorem retrieve_data_missing_ns {s : MemoryKeyStorage} {ns : String}
    (k : String) (now : Nat)
    (hfind : dictFind s.idempotency_key_cache_data ns = none) :
    s.retrieve_data ns k now =
      ((false, none),
       { s with idempotency_key_cache_data :=
           (dictInsert s.idempotency_key_cache_data ns (some [])) }) := by
  simp [MemoryKeyStorage.retrieve_data, ddGet, hfind, dictFind]

theorem delete_data_missing_ns {s : MemoryKeyStorage} {ns : String} (k : String)
    (hfind : dictFind s.idempotency_key_cache_data ns = none) :
    s.delete_data ns k =
      { s with idempotency_key_cache_data :=
          (dictInsert s.idempotency_key_cache_data ns (some [])) } := by
  simp [MemoryKeyStorage.delete_data, ddGet, hfind, dictFind]

theorem reservation_ttl_mem {s s1 : MemoryKeyStorage} {ns k : String} {t0 : Nat}
    (h : s.store_data ns k none t0 = .ok s1) :
    (∀ now, now < t0 + s.ttl → (s1.retrieve_data ns k now).1 = (true, none))
    ∧ (∀ now, t0 + s.ttl < now →
        (s1.retrieve_data ns k now).1 = (false, none)
        ∧ ((s1.retrieve_data ns k now).2).lookup ns k = none
        ∧ ∀ now2,
          (((s1.retrieve_data ns k now).2).retrieve_data ns k now2).1 =
            (false, none)) := by
  have httl : s1.ttl = s.ttl := store_data_ttl h
  have hlook : s1.lookup ns k = some (CachedHttpResponse.init none t0) :=
    lookup_store_self h
  constructor
  · intro now hnow
    rw [retrieve_data_fst, hlook, httl]
    have hlt : ¬(t0 + s.ttl < now) := Nat.not_lt.mpr hnow.le
    simp [readResult, CachedHttpResponse.init, hlt]
  · intro now hnow
    have hfst : (s1.retrieve_data ns k now).1 = (false, none) := by
      rw [retrieve_data_fst, hlook, httl]
      simp [readResult, CachedHttpResponse.init, hnow]
    have hgone : ((s1.retrieve_data ns k now).2).lookup ns k = none := by
      rw [retrieve_lookup_self, hfst]
      simp
    refine ⟨hfst, hgone, ?_⟩
    intro now2
    rw [retrieve_data_fst, hgone]
    simp [readResult]

theorem reservation_ttl_cache {st : CacheKeyStorage} {c c1 : DjangoCaches}
    {ns k : String} {t0 : Nat}
    (h : st.store_data c ns k none t0 = .ok c1) :
    (∀ now, now < t0 + st.ttl →
      st.retrieve_data c1 ns k now = .ok ((true, none), c1))
    ∧ (∀ now, t0 + st.ttl < now → ∃ c2,
        st.retrieve_data c1 ns k now = .ok ((false, none), c2)
        ∧ cacheLookup c2 ns k = none
        ∧ ∀ now2, st.retrieve_data c2 ns k now2 = .ok ((false, none), c2)) := by
  cases hfind : dictFind c ns with
  | none => simp [CacheKeyStorage.store_data, hfind] at h
  | some tab =>
    simp only [CacheKeyStorage.store_data, hfind] at h
    rw [Except.ok.injEq] at h
    subst h
    have h1 : dictFind (dictInsert c ns
        (dictInsert tab k (CachedHttpResponse.init none t0))) ns =
        some (dictInsert tab k (CachedHttpResponse.init none t0)) :=
      dictFind_insert_self _ _ _
    constructor
    · intro now hnow
      have hlt : ¬(t0 + st.ttl < now) := Nat.not_lt.mpr hnow.le
      simp [CacheKeyStorage.retrieve_data, h1, dictFind_insert_self,
            CachedHttpResponse.response_and_mtime, CachedHttpResponse.init, hlt]
    · intro now hnow
      refine ⟨dictInsert (dictInsert c ns
          (dictInsert tab k (CachedHttpResponse.init none t0))) ns
          (dictRemove (dictInsert tab k (CachedHttpResponse.init none t0)) k),
        ?_, ?_, ?_⟩
      · simp [CacheKeyStorage.retrieve_data, h1, dictFind_insert_self,
              CachedHttpResponse.response_and_mtime, CachedHttpResponse.init,
              hnow]
      · simp [cacheLookup, dictFind_insert_self, dictFind_remove_self]
      · intro now2
        simp [CacheKeyStorage.retrieve_data, dictFind_insert_self,
              dictFind_remove_self]

/-- C1: Reservation TTL reclamation. For a store constructed with
`ttl = T`, after `store_data ns k` of the reservation sentinel written at
time `t0`, `retrieve_data ns k` at any time earlier than `t0 + T` returns
`(true, sentinel)`; at any time strictly later than `t0 + T` it deletes
the record as a side effect and returns `(false, none)`; and a second
`retrieve_data` after expiry also returns `(false, none)`. Proved for both
the in-memory backend and the shared-cache backend. -/
theorem C1_reservation_ttl_reclamation :
    (∀ (s s1 : MemoryKeyStorage) (ns k : String) (t0 : Nat),
      s.store_data ns k none t0 = .ok s1 →
      (∀ now, now < t0 + s.ttl → (s1.retrieve_data ns k now).1 = (true, none))
      ∧ (∀ now, t0 + s.ttl < now →
          (s1.retrieve_data ns k now).1 = (false, none)
          ∧ ((s1.retrieve_data ns k now).2).lookup ns k = none
          ∧ ∀ now2,
            (((s1.retrieve_data ns k now).2).retrieve_data ns k now2).1 =
              (false, none)))
    ∧ (∀ (st : CacheKeyStorage) (c c1 : DjangoCaches) (ns k : String) (t0 : Nat),
      st.store_data c ns k none t0 = .ok c1 →
      (∀ now, now < t0 + st.ttl →
        st.retrieve_data c1 ns k now = .ok ((true, none), c1))
      ∧ (∀ now, t0 + st.ttl < now → ∃ c2,
          st.retrieve_data c1 ns k now = .ok ((false, none), c2)
          ∧ cacheLookup c2 ns k = none
          ∧ ∀ now2, st.retrieve_data c2 ns k now2 = .ok ((false, none), c2))) :=
  ⟨fun _ _ _ _ _ h => reservation_ttl_mem h,
   fun _ _ _ _ _ _ h => reservation_ttl_cache h⟩

/-- Witness for C1: ttl 5, reservation stored at time 0, fresh read at
time 3, expired read at time 6, second read at time 7, on both backends. -/
theorem C1_reservation_ttl_reclamation_witness :
    (((⟨5, [("c", some [("k", ⟨none, 0⟩)])]⟩ : MemoryKeyStorage).retrieve_data
        "c" "k" 3).1 = (true, none))
    ∧ (((⟨5, [("c", some [("k", ⟨none, 0⟩)])]⟩ : MemoryKeyStorage).retrieve_data
        "c" "k" 6).1 = (false, none))
    ∧ (((⟨5, [("c", some [("k", ⟨none, 0⟩)])]⟩ : MemoryKeyStorage).retrieve_data
        "c" "k" 6).2.lookup "c" "k" = none)
    ∧ ((CacheKeyStorage.mk 5).retrieve_data [("c", [("k", ⟨none, 0⟩)])] "c" "k" 3
        = .ok ((true, none), [("c", [("k", ⟨none, 0⟩)])])) := by
  have hm := C1_reservation_ttl_reclamation.1 (MemoryKeyStorage.minit 5)
    (⟨5, [("c", some [("k", ⟨none, 0⟩)])]⟩ : MemoryKeyStorage) "c" "k" 0 rfl
  have hc := C1_reservation_ttl_reclamation.2 (CacheKeyStorage.mk 5)
    [("c", [])] [("c", [("k", ⟨none, 0⟩)])] "c" "k" 0 rfl
  exact ⟨hm.1 3 (by decide), (hm.2 6 (by decide)).1, (hm.2 6 (by decide)).2.1,
         hc.1 3 (by decide)⟩

theorem retrieve_data_found {s : MemoryKeyStorage} {ns k : String}
    {e : CachedHttpResponse} (hl : s.lookup ns k = some e) {now : Nat}
    (hfresh : ¬(e._response = none ∧ e._mtime + s.ttl < now)) :
    s.retrieve_data ns k now = ((true, e._response), s) := by
  cases hfind : dictFind s.idempotency_key_cache_data ns with
  | none => simp [MemoryKeyStorage.lookup, hfind] at hl
  | some tab? =>
    cases tab? with
    | none => simp [MemoryKeyStorage.lookup, hfind] at hl
    | some tab =>
      simp only [MemoryKeyStorage.lookup, hfind] at hl
      simp [MemoryKeyStorage.retrieve_data, ddGet, hfind, hl,
            CachedHttpResponse.response_and_mtime, hfresh]

/-- Counterexample to C2 as stated: starting from a fresh store with
`ttl = 5`, storing a completed response for key `("c", "k")` at time 0 and
then calling `store_data` with the reservation sentinel on the same key at
time 1 leaves the record in place while its payload moves backward from
`Present 201` to the sentinel. -/
theorem C2_payload_monotonicity_counterexample :
    ((MemoryKeyStorage.minit 5).applyOps
        [.store "c" "k" (some ⟨201⟩) 0]).payload_state "c" "k" =
      some (some ⟨201⟩)
    ∧ ((MemoryKeyStorage.minit 5).applyOps
        [.store "c" "k" (some ⟨201⟩) 0, .store "c" "k" none 1]).payload_state
        "c" "k" = some none := by
  decide

/-- C2 (amended): the backward transition `Present → Absent` is possible,
but only through a `store_data` call that writes the reservation sentinel
over the key. In any sequence of store/retrieve/delete operations in which
`store_data` is never called with the sentinel on `(ns, k)`, a record for
`(ns, k)` whose payload is not the sentinel never comes to hold the
sentinel while still existing — it keeps a Present payload or the whole
record is deleted. -/
theorem C2_payload_monotonicity_amended :
    ∀ (s : MemoryKeyStorage) (ns k : String) (ops : List MemOp),
      (∀ op ∈ ops, op.stores_sentinel_to ns k = false) →
      s.payload_state ns k ≠ some none →
      (s.applyOps ops).payload_state ns k ≠ some none :=
  fun _ _ _ ops hops hP => applyOps_payload_not_sentinel ops _ hops hP

/-- Witness for the amended C2: a completed record survives a retrieve, a
completed overwrite, and an unrelated delete without its payload ever
regressing to the sentinel. -/
theorem C2_payload_monotonicity_amended_witness :
    ((⟨5, [("c", some [("k", ⟨some ⟨201⟩, 0⟩)])]⟩ : MemoryKeyStorage).applyOps
        [.retrieve "c" "k" 3, .store "c" "k" (some ⟨200⟩) 4,
         .delete "c" "x"]).payload_state "c" "k" ≠ some none :=
  C2_payload_monotonicity_amended _ "c" "k" _ (by decide) (by decide)

/-- C3: round trip for completed records. After `store_data ns k (some R)`
the read `retrieve_data ns k` returns `(true, R)` at every time, however
large, and leaves the state untouched (so the record lives until it is
explicitly deleted — the TTL never reclaims a completed record). -/
theorem C3_completed_round_trip :
    ∀ (s s1 : MemoryKeyStorage) (ns k : String) (R : HttpResponse) (t0 : Nat),
      s.store_data ns k (some R) t0 = .ok s1 →
      ∀ now, s1.retrieve_data ns k now = ((true, some R), s1) := by
  intro s s1 ns k R t0 h now
  have hl : s1.lookup ns k = some (CachedHttpResponse.init (some R) t0) :=
    lookup_store_self h
  exact retrieve_data_found hl (fun hc => by simp [CachedHttpResponse.init] at hc)

/-- Witness for C3: a completed 201 response stored at time 0 with
`ttl = 7` is still returned unchanged at time 100. -/
theorem C3_completed_round_trip_witness :
    (⟨7, [("c", some [("k", ⟨some ⟨201⟩, 0⟩)])]⟩ : MemoryKeyStorage).retrieve_data
        "c" "k" 100 =
      ((true, some ⟨201⟩), ⟨7, [("c", some [("k", ⟨some ⟨201⟩, 0⟩)])]⟩) :=
  C3_completed_round_trip (MemoryKeyStorage.minit 7) _ "c" "k" ⟨201⟩ 0 rfl 100

/-- C4: absence. Starting from a fresh in-memory store, for any
`(namespace, key)` pair that no operation of the history ever stored to,
`retrieve_data` reports `(false, none)`; and on a namespace the store has
never seen (no entry in the outer table), `retrieve_data` reports
`(false, none)` and `delete_data` merely materialises the empty namespace
table — both are total functions, so neither can raise. -/
theorem C4_absence :
    (∀ (ttl : Nat) (ops : List MemOp) (ns k : String) (now : Nat),
      (∀ op ∈ ops, op.is_store_to ns k = false) →
      (((MemoryKeyStorage.minit ttl).applyOps ops).retrieve_data ns k now).1 =
        (false, none))
    ∧ (∀ (s : MemoryKeyStorage) (ns k : String) (now : Nat),
        dictFind s.idempotency_key_cache_data ns = none →
        (s.retrieve_data ns k now).1 = (false, none)
        ∧ s.delete_data ns k =
            { s with idempotency_key_cache_data :=
                (dictInsert s.idempotency_key_cache_data ns (some [])) }) := by
  constructor
  · intro ttl ops ns k now hops
    have h0 : (MemoryKeyStorage.minit ttl).lookup ns k = none := by
      simp [MemoryKeyStorage.minit, MemoryKeyStorage.lookup, dictFind]
    have hl := applyOps_lookup_none ops _ hops h0
    rw [retrieve_data_fst, hl]
    rfl
  · intro s ns k now hfind
    refine ⟨?_, delete_data_missing_ns k hfind⟩
    rw [retrieve_data_missing_ns k now hfind]

/-- Witness for C4: with a history that stores only under other keys, the
pair `("c", "k")` reads as absent at time 9; and on the never-seen
namespace of a fresh store both operations behave as on an empty table. -/
theorem C4_absence_witness :
    ((((MemoryKeyStorage.minit 5).applyOps
        [.store "other" "k" (some ⟨200⟩) 0, .store "c" "q" (some ⟨200⟩) 1,
         .retrieve "c" "k" 2]).retrieve_data "c" "k" 9).1 = (false, none))
    ∧ (((MemoryKeyStorage.minit 5).retrieve_data "c" "k" 9).1 = (false, none)) :=
  ⟨C4_absence.1 5 _ "c" "k" 9 (by decide),
   (C4_absence.2 (MemoryKeyStorage.minit 5) "c" "k" 9 rfl).1⟩

/-- C5: last-writer-wins overwrite. On a wellformed store, `store_data`
always succeeds, and a second `store_data` on the same key fully replaces
the first record: afterwards the stored record is exactly the new payload
with the new call's timestamp as `writtenAt` (no merge). -/
theorem C5_last_writer_wins :
    ∀ (s : MemoryKeyStorage) (ns k : String) (r1 r2 : Option HttpResponse)
      (t1 t2 : Nat), s.WF →
      ∃ s1 s2, s.store_data ns k r1 t1 = .ok s1
        ∧ s1.store_data ns k r2 t2 = .ok s2
        ∧ s2.lookup ns k = some (CachedHttpResponse.init r2 t2) := by
  intro s ns k r1 r2 t1 t2 hWF
  obtain ⟨s1, h1⟩ := store_data_ok hWF ns k r1 t1
  obtain ⟨s2, h2⟩ := store_data_ok (WF_store hWF h1) ns k r2 t2
  exact ⟨s1, s2, h1, h2, lookup_store_self h2⟩

/-- Witness for C5: two sequential completed stores under the same key;
the surviving record carries the second payload and timestamp. -/
theorem C5_last_writer_wins_witness :
    ∃ s1 s2, (MemoryKeyStorage.minit 5).store_data "c" "k" (some ⟨200⟩) 1 =
        .ok s1
      ∧ s1.store_data "c" "k" (some ⟨201⟩) 2 = .ok s2
      ∧ s2.lookup "c" "k" = some (CachedHttpResponse.init (some ⟨201⟩) 2) :=
  C5_last_writer_wins (MemoryKeyStorage.minit 5) "c" "k" (some ⟨200⟩)
    (some ⟨201⟩) 1 2 (by decide)

/-- C6: deletion idempotence. In the in-memory backend `delete_data` is a
total function (deleting a nonexistent key raises nothing) and a
`retrieve_data` of the same key right after any `delete_data` reports
`(false, none)` — whether or not the key existed. In the shared-cache
backend, on any configured cache the deletion succeeds and the subsequent
read reports `(false, none)` likewise. -/
theorem C6_deletion_idempotence :
    (∀ (s : MemoryKeyStorage) (ns k : String) (now : Nat),
      ((s.delete_data ns k).retrieve_data ns k now).1 = (false, none))
    ∧ (∀ (st : CacheKeyStorage) (c : DjangoCaches) (ns k : String) (now : Nat)
        (tab : Table), dictFind c ns = some tab →
        ∃ c', st.delete_data c ns k = .ok c'
          ∧ st.retrieve_data c' ns k now = .ok ((false, none), c')) := by
  constructor
  · intro s ns k now
    rw [retrieve_data_fst, delete_lookup_self]
    rfl
  · intro st c ns k now tab hfind
    cases hk : dictFind tab k with
    | none =>
      refine ⟨c, ?_, ?_⟩
      · simp [CacheKeyStorage.delete_data, hfind, hk]
      · simp [CacheKeyStorage.retrieve_data, hfind, hk]
    | some entry =>
      refine ⟨dictInsert c ns (dictRemove tab k), ?_, ?_⟩
      · simp [CacheKeyStorage.delete_data, hfind, hk]
      · simp [CacheKeyStorage.retrieve_data, dictFind_insert_self,
              dictFind_remove_self]

/-- Witness for C6: deleting an existing key and a nonexistent key on the
shared-cache backend, then reading back. -/
theorem C6_deletion_idempotence_witness :
    (((MemoryKeyStorage.minit 5).delete_data "c" "k").retrieve_data "c" "k"
        3).1 = (false, none)
    ∧ ∃ c', (CacheKeyStorage.mk 5).delete_data
          [("c", [("k", ⟨some ⟨200⟩, 0⟩)])] "c" "k" = .ok c'
        ∧ (CacheKeyStorage.mk 5).retrieve_data c' "c" "k" 3 =
            .ok ((false, none), c') :=
  ⟨C6_deletion_idempotence.1 (MemoryKeyStorage.minit 5) "c" "k" 3,
   C6_deletion_idempotence.2 (CacheKeyStorage.mk 5) _ "c" "k" 3 _ rfl⟩

/-- C7: namespace isolation. A store under `ns1` does not change the
result a read under a different namespace `ns2` reports for the same key,
and a delete under `ns1` does not change any record stored under `ns2`. -/
theorem C7_namespace_isolation :
    ∀ (s s1 : MemoryKeyStorage) (ns1 ns2 k k' : String)
      (r : Option HttpResponse) (t now : Nat), ns1 ≠ ns2 →
      (s.store_data ns1 k r t = .ok s1 →
        (s1.retrieve_data ns2 k now).1 = (s.retrieve_data ns2 k now).1)
      ∧ (s.delete_data ns1 k).lookup ns2 k' = s.lookup ns2 k' := by
  intro s s1 ns1 ns2 k k' r t now hne
  constructor
  · intro h
    rw [retrieve_data_fst, retrieve_data_fst, store_data_ttl h,
        lookup_store_ne h (fun hx => hne hx.1.symm)]
  · exact delete_lookup_ne s (fun hx => hne hx.1.symm)

/-- Witness for C7: a store and a delete under namespace "a" leave the
read result and the record under namespace "b" untouched. -/
theorem C7_namespace_isolation_witness :
    (((⟨5, [("b", some [("k", ⟨some ⟨200⟩, 0⟩)]),
            ("a", some [("k", ⟨some ⟨201⟩, 1⟩)])]⟩ :
        MemoryKeyStorage).retrieve_data "b" "k" 3).1 =
      ((⟨5, [("b", some [("k", ⟨some ⟨200⟩, 0⟩)])]⟩ :
        MemoryKeyStorage).retrieve_data "b" "k" 3).1)
    ∧ ((⟨5, [("b", some [("k", ⟨some ⟨200⟩, 0⟩)])]⟩ :
        MemoryKeyStorage).delete_data "a" "k").lookup "b" "k" =
      (⟨5, [("b", some [("k", ⟨some ⟨200⟩, 0⟩)])]⟩ :
        MemoryKeyStorage).lookup "b" "k" := by
  have h := C7_namespace_isolation
    (⟨5, [("b", some [("k", ⟨some ⟨200⟩, 0⟩)])]⟩ : MemoryKeyStorage)
    (⟨5, [("b", some [("k", ⟨some ⟨200⟩, 0⟩)]),
          ("a", some [("k", ⟨some ⟨201⟩, 1⟩)])]⟩ : MemoryKeyStorage)
    "a" "b" "k" "k" (some ⟨201⟩) 1 3 (by decide)
  exact ⟨h.1 rfl, h.2⟩

/-- C8: startup validation fail-fast. `CacheKeyStorage.validate_storage`
raises an error exactly when the named cache cannot be resolved among the
configured caches, so a misconfigured shared-cache name surfaces at
startup; `MemoryKeyStorage.validate_storage` never raises for any name. -/
theorem C8_validate_storage_fail_fast :
    ∀ (name : String) (c : DjangoCaches),
      ((∃ e, CacheKeyStorage.validate_storage name c = .error e) ↔
        dictFind c name = none)
      ∧ MemoryKeyStorage.validate_storage name = .ok () := by
  intro name c
  refine ⟨⟨?_, ?_⟩, rfl⟩
  · rintro ⟨e, he⟩
    cases hfind : dictFind c name with
    | none => rfl
    | some tab => simp [CacheKeyStorage.validate_storage, hfind] at he
  · intro hfind
    exact ⟨.invalidCacheBackendError,
           by simp [CacheKeyStorage.validate_storage, hfind]⟩

/-- Witness for C8: the unconfigured name "missing" is rejected at
startup while the configured name "c" and the memory backend pass. -/
theorem C8_validate_storage_fail_fast_witness :
    (∃ e, CacheKeyStorage.validate_storage "missing" [("c", [])] = .error e)
    ∧ MemoryKeyStorage.validate_storage "missing" = .ok () :=
  ⟨(C8_validate_storage_fail_fast "missing" [("c", [])]).1.mpr rfl,
   (C8_validate_storage_fail_fast "missing" [("c", [])]).2⟩

/-- C9: the `response_and_mtime` setter raises `ValueError` whenever the
assigned value is not an `HttpResponse` instance (in this model, whenever
it is the `None` sentinel — so the sentinel can never be written through
the setter), and a valid assignment replaces the stored response and sets
the timestamp to the current time. -/
theorem C9_setter_rejects_non_response :
    ∀ (c : CachedHttpResponse) (now : Nat),
      c.set_response_and_mtime none now = .error .valueError
      ∧ ∀ r : HttpResponse, c.set_response_and_mtime (some r) now =
          .ok { _response := some r, _mtime := now } :=
  fun _ _ => ⟨rfl, fun _ => rfl⟩

/-- C10: the outer table is a `defaultdict`, so every reachable state is
wellformed (no namespace slot holds `None`), the namespace lookup inside
`retrieve_data` never yields `None` on a wellformed state (the
`the_cache is None` branch is unreachable), and on a never-seen namespace
`retrieve_data`/`delete_data` insert an empty table for that namespace as
a side effect while reporting `(false, none)` / changing nothing else. -/
theorem C10_defaultdict_none_branch_unreachable :
    (∀ (ttl : Nat) (ops : List MemOp),
      ((MemoryKeyStorage.minit ttl).applyOps ops).WF)
    ∧ (∀ s : MemoryKeyStorage, s.WF →
        ∀ ns, (ddGet s.idempotency_key_cache_data ns).1 ≠ none)
    ∧ (∀ (s : MemoryKeyStorage) (ns k : String) (now : Nat),
        dictFind s.idempotency_key_cache_data ns = none →
        s.retrieve_data ns k now =
          ((false, none),
           { s with idempotency_key_cache_data :=
               (dictInsert s.idempotency_key_cache_data ns (some [])) })
        ∧ s.delete_data ns k =
            { s with idempotency_key_cache_data :=
                (dictInsert s.idempotency_key_cache_data ns (some [])) }) :=
  ⟨fun ttl ops => WF_applyOps ops _ (WF_minit ttl),
   fun _ hWF ns => ddGet_fst_ne_none hWF ns,
   fun _ ns k now hfind =>
     ⟨retrieve_data_missing_ns k now hfind, delete_data_missing_ns k hfind⟩⟩

/-- Witness for C10: on a concrete wellformed state the defaultdict
lookup of a missing namespace is non-`None`, and retrieve/delete on a
fresh store's unseen namespace materialise the empty table. -/
theorem C10_defaultdict_none_branch_unreachable_witness :
    ((ddGet ([("a", some [])] : CacheData) "b").1 ≠ none)
    ∧ (MemoryKeyStorage.minit 3).retrieve_data "c" "k" 9 =
        ((false, none),
         { MemoryKeyStorage.minit 3 with idempotency_key_cache_data :=
             (dictInsert (MemoryKeyStorage.minit 3).idempotency_key_cache_data
               "c" (some [])) })
    ∧ (MemoryKeyStorage.minit 3).delete_data "c" "k" =
        { MemoryKeyStorage.minit 3 with idempotency_key_cache_data :=
            (dictInsert (MemoryKeyStorage.minit 3).idempotency_key_cache_data
              "c" (some [])) } := by
  have h2 := C10_defaultdict_none_branch_unreachable.2.1
    (⟨3, [("a", some [])]⟩ : MemoryKeyStorage) (by decide) "b"
  have h3 := C10_defaultdict_none_branch_unreachable.2.2
    (MemoryKeyStorage.minit 3) "c" "k" 9 rfl
  exact ⟨h2, h3.1, h3.2⟩
